import Mathlib

/-!
# pebbleface: a verification development for `src/c/Main.c`

The watchface is a set of callbacks over module-level globals.  The embedding
keeps every global and every function-static buffer of `Main.c` as a field of
one record `App`, together with the part of the Pebble platform the callbacks
act on (live resources, the text each text layer points at, the trace of
platform calls).  Every callback is a function on `App` written statement by
statement after the C source; the draw routine returns the rectangles it fills.

C strings are lists of characters: the characters before the terminating NUL.
-/

namespace Pebbleface

/-! ## Platform model -/

/-- A resource handle (a non-NULL pointer returned by a `*_create` call). -/
abbrev Handle := Nat

/-- The `value` union of a Pebble `Tuple`, as written by the sender. -/
inductive TupleValue where
  | uint8 (v : Nat)
  | int32 (v : Int)
  | cstring (s : List Char)
  deriving DecidableEq, Repr

/-- One key/value pair of an AppMessage dictionary. -/
structure Tuple where
  key : Nat
  value : TupleValue
  deriving DecidableEq, Repr

/-- A dictionary is the sequence of its tuples. -/
abbrev DictionaryIterator := List Tuple

/-- The C `struct tm`, restricted to the fields the watchface formats or tests. -/
structure Tm where
  tm_min : Nat
  tm_hour : Nat
  tm_mday : Nat
  tm_mon : Nat
  deriving DecidableEq, Repr

/-- What a text layer points at: `text_layer_set_text` stores the pointer it is
given, it does not copy the string. -/
inductive TextRef where
  | unset
  | literal (s : List Char)
  | weather_layer_buffer
  | time_s_buffer
  | date_s_buffer
  deriving DecidableEq, Repr

/-- A `GRect`: origin and size. -/
structure GRect where
  x : Nat
  y : Nat
  w : Nat
  h : Nat
  deriving DecidableEq, Repr

/-- The fill colours `Main.c` draws with. -/
inductive GColor where
  | GColorBlack
  | GColorWhite
  deriving DecidableEq, Repr

/-- Platform calls with an effect outside the program, in the order made. -/
inductive Call where
  | vibes_double_pulse
  | layer_set_hidden (layer : Option Handle) (hidden : Bool)
  | text_layer_set_text (layer : Option Handle) (text : TextRef)
  | app_message_outbox_send (msg : DictionaryIterator)
  | layer_mark_dirty (layer : Option Handle)
  deriving DecidableEq, Repr

/-- The globals of `Main.c` (lines 6-23), its function-static buffers, and the
platform state the callbacks read and write. -/
structure App where
  s_time_layer : Option Handle
  s_date_layer : Option Handle
  s_weather_layer : Option Handle
  s_background_layer : Option Handle
  s_background_bitmap : Option Handle
  s_bt_icon_layer : Option Handle
  s_bt_icon_bitmap : Option Handle
  s_time_font : Option Handle
  s_date_font : Option Handle
  s_weather_font : Option Handle
  s_battery_level : Nat
  s_battery_layer_width : Nat
  s_battery_layer : Option Handle
  /-- In `inbox_received_callback`: `static char temperature_buffer[8]`. -/
  temperature_buffer : List Char
  /-- In `inbox_received_callback`: `static char conditions_buffer[32]`. -/
  conditions_buffer : List Char
  /-- In `inbox_received_callback`: `static char weather_layer_buffer[32]`. -/
  weather_layer_buffer : List Char
  /-- In `update_time`: `static char tmp_buffer[8]`. -/
  time_tmp_buffer : List Char
  /-- In `update_time`: `static char s_buffer[8]`. -/
  time_s_buffer : List Char
  /-- In `update_date`: `static char s_buffer[8]`. -/
  date_s_buffer : List Char
  /-- resources created and not yet destroyed -/
  live : List Handle
  /-- the next handle the platform hands out -/
  next : Handle
  /-- every `*_destroy` / `fonts_unload_custom_font` argument, in call order -/
  released : List (Option Handle)
  /-- the pointer held by the time text layer -/
  time_text : TextRef
  /-- the pointer held by the date text layer -/
  date_text : TextRef
  /-- the pointer held by the weather text layer -/
  weather_text : TextRef
  /-- the hidden flag of the Bluetooth icon layer -/
  bt_icon_hidden : Bool
  /-- the outbox dictionary under construction -/
  outbox : DictionaryIterator
  /-- what `localtime(time(NULL))` returns -/
  clock : Tm
  /-- what `clock_is_24h_style()` returns -/
  clock_24h : Bool
  /-- trace of platform calls -/
  calls : List Call
  deriving DecidableEq, Repr

/-- The program state before `init`: C zero-initialises statics. -/
def App.start (clock : Tm) (clock_24h : Bool) : App :=
  { s_time_layer := none, s_date_layer := none, s_weather_layer := none,
    s_background_layer := none, s_background_bitmap := none,
    s_bt_icon_layer := none, s_bt_icon_bitmap := none,
    s_time_font := none, s_date_font := none, s_weather_font := none,
    s_battery_level := 0, s_battery_layer_width := 0, s_battery_layer := none,
    temperature_buffer := [], conditions_buffer := [], weather_layer_buffer := [],
    time_tmp_buffer := [], time_s_buffer := [], date_s_buffer := [],
    live := [], next := 1, released := [],
    time_text := .unset, date_text := .unset, weather_text := .unset,
    bt_icon_hidden := false, outbox := [],
    clock := clock, clock_24h := clock_24h, calls := [] }

/-- The string a text reference shows on screen. -/
def App.deref (s : App) : TextRef → List Char
  | .unset => []
  | .literal t => t
  | .weather_layer_buffer => s.weather_layer_buffer
  | .time_s_buffer => s.time_s_buffer
  | .date_s_buffer => s.date_s_buffer

/-- The weather string on screen. -/
def App.weather_display (s : App) : List Char := s.deref s.weather_text

/-- The time string on screen. -/
def App.time_display (s : App) : List Char := s.deref s.time_text

/-- The date string on screen. -/
def App.date_display (s : App) : List Char := s.deref s.date_text

/-! ## libc and SDK primitives -/

/-- SDK `dict_find`: the first tuple with the given key, `none` for NULL. -/
def dict_find (iter : DictionaryIterator) (key : Nat) : Option Tuple :=
  iter.find? (fun t => t.key == key)

/-- Reduction of an integer to the `int32_t` range (two's complement). -/
def wrap32 (v : Int) : Int := (v + 2 ^ 31) % 2 ^ 32 - 2 ^ 31

/-- Member read `tuple->value->int32`.  Reading the member of a tuple that carries another
type reinterprets bytes this model does not have: `none`. -/
def Tuple.int32 (t : Tuple) : Option Int :=
  match t.value with
  | .int32 v => some (wrap32 v)
  | _ => none

/-- Member read `tuple->value->cstring`, `none` when the tuple carries another type. -/
def Tuple.cstring (t : Tuple) : Option (List Char) :=
  match t.value with
  | .cstring d => some d
  | _ => none

/-- The `printf` conversion `%d`. -/
def fmt_d (v : Int) : List Char :=
  if v < 0 then '-' :: Nat.toDigits 10 v.natAbs else Nat.toDigits 10 v.toNat

/-- Call `snprintf(buf, size, ...)`, given the fully formatted text: at most
`size - 1` characters are stored, followed by the terminator; with `size = 0`
nothing is written. -/
def snprintf (buf : List Char) (size : Nat) (text : List Char) : List Char :=
  if size = 0 then buf else text.take (size - 1)

/-- Call `strcpy(dst, src)`: the destination receives the source string. -/
def strcpy (src : List Char) : List Char := src

/-- A number in decimal, left-padded with `pad` to two characters
(`%H`, `%M` pad with `0`; `%l`, `%e` pad with a space). -/
def pad2 (pad : Char) (n : Nat) : List Char :=
  let ds := Nat.toDigits 10 n
  List.replicate (2 - ds.length) pad ++ ds

/-- The `strftime` conversion `%b`: abbreviated month name, `tm_mon` in 0..11. -/
def month_abbrev (tm_mon : Nat) : List Char :=
  (["Jan", "Feb", "Mar", "Apr", "May", "Jun",
    "Jul", "Aug", "Sep", "Oct", "Nov", "Dec"].getD tm_mon "?").toList

/-- The conversions of `strftime` that `Main.c` uses. -/
inductive Conv where
  | H
  | M
  | l
  | b
  | e
  | lit (c : Char)
  deriving DecidableEq, Repr

/-- Expansion of one conversion. -/
def Conv.expand (t : Tm) : Conv → List Char
  | .H => pad2 '0' t.tm_hour
  | .M => pad2 '0' t.tm_min
  | .l => pad2 ' ' (if t.tm_hour % 12 = 0 then 12 else t.tm_hour % 12)
  | .b => month_abbrev t.tm_mon
  | .e => pad2 ' ' t.tm_mday
  | .lit c => [c]

/-- Call `strftime(buf, maxsize, format, tm)`: the expansion is stored when it fits
with its terminator; otherwise the buffer is left as it was (ISO C leaves it
indeterminate; no format of `Main.c` reaches this case). -/
def strftime (buf : List Char) (maxsize : Nat) (format : List Conv) (t : Tm) : List Char :=
  let text := (format.map (Conv.expand t)).flatten
  if text.length < maxsize then text else buf

/-- Format `"%H:%M"`. -/
def fmt_24h : List Conv := [.H, .lit ':', .M]

/-- Format `"%l:%M"`. -/
def fmt_12h : List Conv := [.l, .lit ':', .M]

/-- Format `"%b %e"`. -/
def fmt_date : List Conv := [.b, .lit ' ', .e]

/-- A `*_create` / `fonts_load_custom_font` call: a fresh live handle. -/
def App.create (s : App) : Handle × App :=
  (s.next, { s with live := s.next :: s.live, next := s.next + 1 })

/-- A `*_destroy` / `fonts_unload_custom_font` call on a pointer. -/
def App.destroy (s : App) (p : Option Handle) : App :=
  { s with
    live := match p with
      | none => s.live
      | some h => s.live.erase h
    released := s.released ++ [p] }

/-- Append a platform call to the trace. -/
def App.call (s : App) (c : Call) : App := { s with calls := s.calls ++ [c] }

/-! ## Single-precision arithmetic

`float` is IEEE-754 binary32 with round-to-nearest, ties-to-even, and every
operation of an expression is rounded to `float` (`FLT_EVAL_METHOD` 0, as on
the ARM targets of the SDK).  Every finite non-negative `float` is an integer
multiple of `2^-149` with at most 24 significant bits; it is represented by
that multiple.  Negative values, infinities and NaN do not occur in `Main.c`
and are not represented. -/

/-- A finite non-negative `float`: the value is `units * 2^-149`. -/
structure F32 where
  units : Nat
  deriving DecidableEq, Repr

/-- The number of low bits to drop from `q` so that at most 24 bits remain
(`fuel` bounds the recursion; `fuel = q` is enough). -/
def F32.shift : Nat → Nat → Nat
  | 0, _ => 0
  | fuel + 1, q => if q < 2 ^ 24 then 0 else F32.shift fuel (q / 2) + 1

/-- The integer nearest to `n / D`, ties to the even one. -/
def F32.nearest (n D : Nat) : Nat :=
  let m := n / D
  let r := n % D
  if 2 * r < D then m else if D < 2 * r then m + 1 else if m % 2 = 0 then m else m + 1

/-- The `float` nearest to the exact quotient `n / d` (in units of `2^-149`),
ties to even; `d` is non-zero in every use.  Overflow to infinity (results of
`2^128` and more) is not modelled. -/
def F32.round (n d : Nat) : F32 :=
  let q := n / d
  let s := F32.shift q q
  ⟨F32.nearest n (d * 2 ^ s) * 2 ^ s⟩

/-- Conversion `(float)n` of a non-negative integer. -/
def F32.ofNat (n : Nat) : F32 := F32.round (n * 2 ^ 149) 1

/-- Division `a / b`. -/
def F32.div (a b : F32) : F32 := F32.round (a.units * 2 ^ 149) b.units

/-- Multiplication `a * b`. -/
def F32.mul (a b : F32) : F32 := F32.round (a.units * b.units) (2 ^ 149)

/-- Conversion `(int)a`: truncation (values of `2^31` and more, undefined in C,
do not occur for the widths considered). -/
def F32.toNat (a : F32) : Nat := a.units / 2 ^ 149

/-! ## `Main.c` -/

/-- Main.c:3, `#define KEY_TEMPERATURE 0`. -/
def KEY_TEMPERATURE : Nat := 0

/-- Main.c:4, `#define KEY_CONDITIONS 1`. -/
def KEY_CONDITIONS : Nat := 1

/-- Function `bluetooth_callback` (Main.c:25-33). -/
def bluetooth_callback (connected : Bool) (s : App) : App :=
  -- layer_set_hidden(bitmap_layer_get_layer(s_bt_icon_layer), connected);
  let s := { s with bt_icon_hidden := connected }
  let s := s.call (.layer_set_hidden s.s_bt_icon_layer connected)
  -- if(!connected) vibes_double_pulse();
  if !connected then s.call .vibes_double_pulse else s

/-- Function `battery_callback` (Main.c:35-40); `charge_percent` is
`state.charge_percent`. -/
def battery_callback (charge_percent : Nat) (s : App) : App :=
  let s := { s with s_battery_level := charge_percent }
  s.call (.layer_mark_dirty s.s_battery_layer)

/-- The local `width` of `battery_update_proc` (Main.c:46):
`(int)(float)(((float)s_battery_level / 100.0F) * (float)s_battery_layer_width)`. -/
def bar_width (s_battery_level s_battery_layer_width : Nat) : Nat :=
  F32.toNat (F32.mul (F32.div (F32.ofNat s_battery_level) (F32.ofNat 100))
    (F32.ofNat s_battery_layer_width))

/-- Function `battery_update_proc` (Main.c:42-55): the rectangles filled, in drawing
order; `bounds` is `layer_get_bounds(layer)`. -/
def battery_update_proc (bounds : GRect) (s : App) : List (GColor × GRect) :=
  let width := bar_width s.s_battery_level s.s_battery_layer_width
  -- Draw the background
  -- Draw the bar
  [(.GColorBlack, bounds), (.GColorWhite, GRect.mk 0 0 width bounds.h)]

/-- The width of the foreground bar among the rectangles drawn. -/
def foreground_width (drawn : List (GColor × GRect)) : Nat :=
  match drawn with
  | [_, (_, bar)] => bar.w
  | _ => 0

/-- Rounding deficit of `(float)p / 100.0F`, scaled: `2^24 * (p - 100 * fl(p/100))`
for the twelve charges whose quotient rounds down by more than `p * 2^-25`; 0 for
every other charge. -/
def deficit (p : Nat) : Nat :=
  match p with
  | 13 => 8
  | 21 => 11
  | 26 => 16
  | 39 => 24
  | 42 => 22
  | 52 => 32
  | 53 => 48
  | 59 => 44
  | 65 => 40
  | 71 => 36
  | 78 => 48
  | 84 => 44
  | _ => 0

/-- The pairs at which `battery_update_proc` draws one pixel less than
`floor(p * W / 100)`: `p * W` is a multiple of 100 and, with `2^f` the least
power of two not below `k = p * W / 100`, `deficit p * W` exceeds `50 * 2^f`
(the product `fl(p/100) * W` then lies below `k` by more than half the spacing
of `float` just under `k`). -/
def one_short (p W : Nat) : Bool :=
  decide (p * W % 100 = 0 ∧
    ∃ f < 16, p * W / 100 ≤ 2 ^ f ∧ 2 ^ f < 2 * (p * W / 100) ∧ 50 * 2 ^ f < deficit p * W)

/-- Function `inbox_received_callback` (Main.c:58-77).  `none` only when a tuple that is
present carries a value of another type than the member read from it. -/
def inbox_received_callback (iterator : DictionaryIterator) (s : App) : Option App :=
  let temp_tuple := dict_find iterator KEY_TEMPERATURE
  let conditions_tuple := dict_find iterator KEY_CONDITIONS
  match temp_tuple, conditions_tuple with
  | some tt, some ct =>
    match tt.int32, ct.cstring with
    | some t, some d =>
      -- snprintf(temperature_buffer, sizeof(temperature_buffer), "%dC", ...);
      let text := fmt_d t ++ ['C']
      let s := { s with temperature_buffer := snprintf s.temperature_buffer 8 text }
      -- snprintf(conditions_buffer, sizeof(conditions_buffer), "%s", ...);
      let s := { s with conditions_buffer := snprintf s.conditions_buffer 32 d }
      -- snprintf(weather_layer_buffer, sizeof(weather_layer_buffer), "%s, %s", ...);
      let text := s.temperature_buffer ++ [',', ' '] ++ s.conditions_buffer
      let s := { s with weather_layer_buffer := snprintf s.weather_layer_buffer 32 text }
      -- text_layer_set_text(s_weather_layer, weather_layer_buffer);
      let s := { s with weather_text := .weather_layer_buffer }
      some (s.call (.text_layer_set_text s.s_weather_layer .weather_layer_buffer))
    | _, _ => none
  | _, _ => some s

/-- Function `update_time` (Main.c:91-107). -/
def update_time (s : App) : App :=
  let tick_time := s.clock
  -- strftime(tmp_buffer, sizeof(tmp_buffer), clock_is_24h_style() ? ... , tick_time);
  let format := if s.clock_24h then fmt_24h else fmt_12h
  let s := { s with time_tmp_buffer := strftime s.time_tmp_buffer 8 format tick_time }
  -- if (tmp_buffer[0] == ' ') strcpy(s_buffer, &tmp_buffer[1]); else strcpy(s_buffer, tmp_buffer);
  let copied :=
    if s.time_tmp_buffer.head? = some ' ' then strcpy (s.time_tmp_buffer.drop 1)
    else strcpy s.time_tmp_buffer
  let s := { s with time_s_buffer := copied }
  -- text_layer_set_text(s_time_layer, s_buffer);
  let s := { s with time_text := .time_s_buffer }
  s.call (.text_layer_set_text s.s_time_layer .time_s_buffer)

/-- Function `update_date` (Main.c:109-119). -/
def update_date (s : App) : App :=
  let tick_time := s.clock
  let s := { s with date_s_buffer := strftime s.date_s_buffer 8 fmt_date tick_time }
  let s := { s with date_text := .date_s_buffer }
  s.call (.text_layer_set_text s.s_date_layer .date_s_buffer)

/-- Function `tick_handler` (Main.c:121-140). -/
def tick_handler (tick_time : Tm) (s : App) : App :=
  let s := update_time s
  let s := if tick_time.tm_min % 1440 = 0 then update_date s else s
  if tick_time.tm_min % 30 = 0 then
    -- app_message_outbox_begin(&iter);
    let s := { s with outbox := [] }
    -- dict_write_uint8(iter, 0, 0);
    let s := { s with outbox := s.outbox ++ [Tuple.mk 0 (.uint8 0)] }
    -- app_message_outbox_send();
    s.call (.app_message_outbox_send s.outbox)
  else s

/-- Function `main_window_load` (Main.c:142-187); `w` is `bounds.size.w` of the
root layer.  The calls that set colours, alignment and fonts and that attach
layers change no modelled state and are left out. -/
def main_window_load (w : Nat) (s : App) : App :=
  -- TIME LAYER
  let (h, s) := s.create
  let s := { s with s_time_layer := some h }
  let (h, s) := s.create
  let s := { s with s_time_font := some h }
  -- DATE LAYER
  let (h, s) := s.create
  let s := { s with s_date_layer := some h }
  let (h, s) := s.create
  let s := { s with s_date_font := some h }
  -- BLUETOOTH CONNECTION LAYER
  let (h, s) := s.create
  let s := { s with s_bt_icon_bitmap := some h }
  let (h, s) := s.create
  let s := { s with s_bt_icon_layer := some h }
  -- WEATHER LAYER
  let (h, s) := s.create
  let s := { s with s_weather_layer := some h }
  let s := { s with weather_text := .literal "Loading...".toList }
  let s := s.call (.text_layer_set_text s.s_weather_layer (.literal "Loading...".toList))
  let (h, s) := s.create
  let s := { s with s_weather_font := some h }
  -- BATTERY LAYER
  let (h, s) := s.create
  let s := { s with s_battery_layer := some h }
  { s with s_battery_layer_width := w }

/-- Function `main_window_unload` (Main.c:189-213). -/
def main_window_unload (s : App) : App :=
  let s := s.destroy s.s_time_layer
  let s := s.destroy s.s_date_layer
  let s := s.destroy s.s_time_font
  let s := s.destroy s.s_background_bitmap
  let s := s.destroy s.s_background_layer
  let s := s.destroy s.s_weather_layer
  let s := s.destroy s.s_weather_font
  let s := s.destroy s.s_battery_layer
  let s := s.destroy s.s_bt_icon_bitmap
  s.destroy s.s_bt_icon_layer

/-! ## Observations on the trace -/

/-- Number of tactile alerts fired so far. -/
def App.alerts (s : App) : Nat := s.calls.count .vibes_double_pulse

/-- Is the call a refresh of the date string (`update_date` publishing its buffer)? -/
def Call.is_date_refresh : Call → Bool
  | .text_layer_set_text _ .date_s_buffer => true
  | _ => false

/-- Number of date refreshes so far. -/
def App.date_refreshes (s : App) : Nat := s.calls.countP Call.is_date_refresh

/-- The message of an outbox send, if the call is one. -/
def Call.sent_message : Call → Option DictionaryIterator
  | .app_message_outbox_send msg => some msg
  | _ => none

/-- The requests sent so far, oldest first. -/
def App.sent (s : App) : List DictionaryIterator := s.calls.filterMap Call.sent_message


/-! ## Weather reply -/

theorem wrap32_of_range (t : Int) (lo : -2 ^ 31 ≤ t) (hi : t < 2 ^ 31) : wrap32 t = t := by
  unfold wrap32
  omega

theorem toDigits_length_le (n e : Nat) (h : n < 10 ^ e) (he : 0 < e) :
    (Nat.toDigits 10 n).length ≤ e :=
  Nat.toDigitsCore_length 10 (by decide) (n + 1) n e h he

theorem fmt_d_length_le (t : Int) (lo : -99999 ≤ t) (hi : t ≤ 999999) :
    (fmt_d t).length ≤ 6 := by
  unfold fmt_d
  split
  · have : (Nat.toDigits 10 t.natAbs).length ≤ 5 :=
      toDigits_length_le _ 5 (by omega) (by decide)
    simp only [List.length_cons]
    omega
  · exact toDigits_length_le _ 6 (by omega) (by decide)

theorem inbox_received_callback_present (iterator : DictionaryIterator) (s : App)
    (tt ct : Tuple) (t : Int) (d : List Char)
    (h0 : dict_find iterator KEY_TEMPERATURE = some tt) (ht : tt.value = .int32 t)
    (h1 : dict_find iterator KEY_CONDITIONS = some ct) (hd : ct.value = .cstring d) :
    ∃ s', inbox_received_callback iterator s = some s' ∧
      s'.temperature_buffer = (fmt_d (wrap32 t) ++ ['C']).take 7 ∧
      s'.conditions_buffer = d.take 31 ∧
      s'.weather_layer_buffer =
        (s'.temperature_buffer ++ [',', ' '] ++ s'.conditions_buffer).take 31 ∧
      s'.weather_text = .weather_layer_buffer := by
  simp only [inbox_received_callback, h0, h1, Tuple.int32, Tuple.cstring, ht, hd]
  exact ⟨_, rfl, by simp [snprintf, App.call]⟩


/-- C1 (amended): a reply carrying temperature `t` with `-99999 ≤ t ≤ 999999`
(so that `<t>C` fits the 8-byte temperature buffer) under key 0 and conditions
`d` under key 1 publishes exactly `<t>C, <d>` whenever that text is at most 31
characters long. -/
theorem weather_string_published (iterator : DictionaryIterator) (s : App)
    (tt ct : Tuple) (t : Int) (d : List Char)
    (h0 : dict_find iterator KEY_TEMPERATURE = some tt) (ht : tt.value = .int32 t)
    (h1 : dict_find iterator KEY_CONDITIONS = some ct) (hd : ct.value = .cstring d)
    (lo : -99999 ≤ t) (hi : t ≤ 999999)
    (fit : (fmt_d t ++ ['C', ',', ' '] ++ d).length ≤ 31) :
    ∃ s', inbox_received_callback iterator s = some s' ∧
      s'.weather_display = fmt_d t ++ ['C', ',', ' '] ++ d := by
  obtain ⟨s', hs, htemp, hcond, hbuf, htext⟩ :=
    inbox_received_callback_present iterator s tt ct t d h0 ht h1 hd
  refine ⟨s', hs, ?_⟩
  have hlen := fmt_d_length_le t lo hi
  simp only [List.length_append, List.length_cons, List.length_nil] at fit
  rw [wrap32_of_range t (by omega) (by omega)] at htemp
  rw [List.take_of_length_le (by simp; omega)] at htemp
  rw [List.take_of_length_le (by omega)] at hcond
  rw [htemp, hcond, List.take_of_length_le (by simp; omega)] at hbuf
  simp [App.weather_display, App.deref, htext, hbuf]

/-- C1, witness: temperature 21 with conditions "Cloudy" publishes "21C, Cloudy". -/
theorem weather_string_published_witness :
    ∃ s', inbox_received_callback
        [Tuple.mk 0 (.int32 21), Tuple.mk 1 (.cstring "Cloudy".toList)]
        (main_window_load 144 (App.start (Tm.mk 5 7 3 0) true)) = some s' ∧
      s'.weather_display = "21C, Cloudy".toList :=
  weather_string_published _ _ (Tuple.mk 0 (.int32 21)) (Tuple.mk 1 (.cstring "Cloudy".toList))
    21 "Cloudy".toList rfl rfl rfl rfl (by decide) (by decide) (by decide)

/-- C1, counterexample: temperature 1000000 with conditions "X".  The text
"1000000C, X" has 11 characters, yet the published string is "1000000, X":
the `C` is cut by the 8-byte temperature buffer. -/
theorem weather_string_counterexample :
    (fmt_d 1000000 ++ ['C', ',', ' '] ++ ['X'] = "1000000C, X".toList ∧
      "1000000C, X".toList.length ≤ 31) ∧
    (inbox_received_callback
        [Tuple.mk 0 (.int32 1000000), Tuple.mk 1 (.cstring ['X'])]
        (main_window_load 144 (App.start (Tm.mk 5 7 3 0) true))).map App.weather_display
      = some "1000000, X".toList ∧
    "1000000, X".toList ≠ "1000000C, X".toList := by
  refine ⟨⟨by decide, by decide⟩, by rfl, by decide⟩

/-- C2: a reply that lacks the temperature tuple or the conditions tuple leaves
the whole program state, hence the displayed weather string, as it was; and
`main_window_load` leaves the placeholder "Loading..." on display. -/
theorem weather_unchanged_when_field_missing (iterator : DictionaryIterator) (s : App)
    (w : Nat) (s0 : App)
    (h : dict_find iterator KEY_TEMPERATURE = none ∨ dict_find iterator KEY_CONDITIONS = none) :
    inbox_received_callback iterator s = some s ∧
      (main_window_load w s0).weather_display = "Loading...".toList := by
  refine ⟨?_, rfl⟩
  unfold inbox_received_callback
  rcases h with h | h
  · simp only [h]
  · simp only [h]
    cases dict_find iterator KEY_TEMPERATURE <;> rfl

/-- C2, witness: a reply with the temperature only, right after load. -/
theorem weather_unchanged_when_field_missing_witness :
    inbox_received_callback [Tuple.mk 0 (.int32 21)]
        (main_window_load 144 (App.start (Tm.mk 5 7 3 0) true))
      = some (main_window_load 144 (App.start (Tm.mk 5 7 3 0) true)) ∧
    (main_window_load 144 (App.start (Tm.mk 5 7 3 0) true)).weather_display
      = "Loading...".toList :=
  weather_unchanged_when_field_missing [Tuple.mk 0 (.int32 21)] _ 144 _ (Or.inr rfl)

/-- C10: with both tuples present, whatever the temperature and however long the
conditions text, the three buffers hold at most 7, 31 and 31 characters (one
byte is left for each terminator), the conditions buffer is the first 31
characters of the text, the weather buffer is the first 31 characters of the
assembled string, and that buffer is what is displayed. -/
theorem weather_buffers_bounded (iterator : DictionaryIterator) (s : App)
    (tt ct : Tuple) (t : Int) (d : List Char)
    (h0 : dict_find iterator KEY_TEMPERATURE = some tt) (ht : tt.value = .int32 t)
    (h1 : dict_find iterator KEY_CONDITIONS = some ct) (hd : ct.value = .cstring d) :
    ∃ s', inbox_received_callback iterator s = some s' ∧
      s'.weather_display.length ≤ 31 ∧
      s'.temperature_buffer.length ≤ 7 ∧
      s'.conditions_buffer.length ≤ 31 ∧
      s'.conditions_buffer = d.take 31 ∧
      s'.weather_display =
        (s'.temperature_buffer ++ [',', ' '] ++ s'.conditions_buffer).take 31 := by
  obtain ⟨s', hs, htemp, hcond, hbuf, htext⟩ :=
    inbox_received_callback_present iterator s tt ct t d h0 ht h1 hd
  have hdisp : s'.weather_display = s'.weather_layer_buffer := by
    simp [App.weather_display, App.deref, htext]
  refine ⟨s', hs, ?_, ?_, ?_, hcond, ?_⟩
  · rw [hdisp, hbuf]
    exact List.length_take_le _ _
  · rw [htemp]
    exact List.length_take_le _ _
  · rw [hcond]
    exact List.length_take_le _ _
  · rw [hdisp, hbuf]

/-- C10, witness: the most negative temperature with a 40-character text. -/
theorem weather_buffers_bounded_witness :
    ∃ s', inbox_received_callback
        [Tuple.mk 0 (.int32 (-2147483648)), Tuple.mk 1 (.cstring (List.replicate 40 'x'))]
        (App.start (Tm.mk 5 7 3 0) true) = some s' ∧
      s'.weather_display.length ≤ 31 ∧
      s'.temperature_buffer.length ≤ 7 ∧
      s'.conditions_buffer.length ≤ 31 ∧
      s'.conditions_buffer = (List.replicate 40 'x').take 31 ∧
      s'.weather_display =
        (s'.temperature_buffer ++ [',', ' '] ++ s'.conditions_buffer).take 31 :=
  weather_buffers_bounded _ _ (Tuple.mk 0 (.int32 (-2147483648)))
    (Tuple.mk 1 (.cstring (List.replicate 40 'x'))) _ _ rfl rfl rfl rfl

/-! ## Connectivity -/

/-- C8: the icon is hidden exactly when `connected` is true, and the callback
fires one alert when `connected` is false and none when it is true. -/
theorem bluetooth_callback_icon_and_alert (connected : Bool) (s : App) :
    (bluetooth_callback connected s).bt_icon_hidden = connected ∧
      (bluetooth_callback connected s).alerts =
        s.alerts + (if connected then 0 else 1) := by
  cases connected <;> simp [bluetooth_callback, App.call, App.alerts]

/-! ## Window load and unload -/

/-- C9 (the code diverges): after `main_window_load` and `main_window_unload`
from the start state, the date font (handle 4) is still live, and two of the
ten releases are of the NULL pointers `s_background_bitmap` and
`s_background_layer`, which `main_window_load` never creates. -/
theorem unload_leaks_date_font (w : Nat) (clock : Tm) (clock_24h : Bool) :
    (main_window_load w (App.start clock clock_24h)).live = [9, 8, 7, 6, 5, 4, 3, 2, 1] ∧
    (main_window_load w (App.start clock clock_24h)).s_date_font = some 4 ∧
    (main_window_unload (main_window_load w (App.start clock clock_24h))).live = [4] ∧
    (main_window_unload (main_window_load w (App.start clock clock_24h))).released =
      [some 1, some 3, some 2, none, none, some 7, some 8, some 9, some 5, some 6] := by
  refine ⟨rfl, rfl, rfl, rfl⟩


/-! ## Timer tick -/

theorem update_time_calls (s : App) :
    (update_time s).calls = s.calls ++ [.text_layer_set_text s.s_time_layer .time_s_buffer] := by
  rfl

theorem update_date_calls (s : App) :
    (update_date s).calls = s.calls ++ [.text_layer_set_text s.s_date_layer .date_s_buffer] := by
  rfl

theorem tick_handler_date_refresh_iff (tick_time : Tm) (s : App)
    (hmin : tick_time.tm_min < 60) :
    (tick_handler tick_time s).date_refreshes =
      s.date_refreshes + (if tick_time.tm_min = 0 then 1 else 0) := by
  have h1440 : tick_time.tm_min % 1440 = tick_time.tm_min := Nat.mod_eq_of_lt (by omega)
  by_cases hd : tick_time.tm_min = 0 <;> by_cases hw : tick_time.tm_min % 30 = 0 <;>
    simp [tick_handler, App.date_refreshes, App.call, update_date_calls, update_time_calls,
      Call.is_date_refresh, h1440, hd, hw]

/-- C5 (the code diverges): the tick delivered at 01:00, sixty minutes after
midnight, refreshes the date although 60 is not a multiple of 1440; the guard
tests `tm_min`, the minute within the hour. -/
theorem tick_handler_refreshes_date_at_one_oclock (s : App) :
    (tick_handler (Tm.mk 0 1 3 0) s).date_refreshes = s.date_refreshes + 1 ∧
      (Tm.mk 0 1 3 0).tm_min = 60 % 60 ∧ 60 % 1440 ≠ 0 := by
  refine ⟨?_, rfl, by decide⟩
  simp [tick_handler, App.date_refreshes, App.call, update_date_calls, update_time_calls,
    Call.is_date_refresh]

/-- C6: on the tick of minute count `t` (so `tm_min = t % 60`) the handler sends a
request exactly when `t % 30 = 0`, and the request is the single pair key 0,
byte 0. -/
theorem tick_handler_weather_request (t : Nat) (tick_time : Tm) (s : App)
    (hmin : tick_time.tm_min = t % 60) :
    (tick_handler tick_time s).sent =
      if t % 30 = 0 then s.sent ++ [[Tuple.mk 0 (.uint8 0)]] else s.sent := by
  have h30 : tick_time.tm_min % 30 = t % 30 := by rw [hmin]; omega
  by_cases hd : tick_time.tm_min % 1440 = 0 <;> by_cases hw : t % 30 = 0 <;>
    simp [tick_handler, App.sent, App.call, update_date_calls, update_time_calls,
      Call.sent_message, h30, hd, hw]

/-- C6, witness: the tick at 10:30 (minute count 630) sends the request. -/
theorem tick_handler_weather_request_witness :
    (tick_handler (Tm.mk 30 10 3 0) (App.start (Tm.mk 30 10 3 0) true)).sent =
      if 630 % 30 = 0 then (App.start (Tm.mk 30 10 3 0) true).sent ++ [[Tuple.mk 0 (.uint8 0)]]
      else (App.start (Tm.mk 30 10 3 0) true).sent :=
  tick_handler_weather_request 630 (Tm.mk 30 10 3 0) _ rfl

/-! ## Time of day -/

theorem pad2_zero (n : Nat) (h : n < 100) :
    pad2 '0' n = [Nat.digitChar (n / 10), Nat.digitChar (n % 10)] := by
  interval_cases n <;> rfl

theorem update_time_display_eq (s : App) :
    (update_time s).time_display =
      if (strftime s.time_tmp_buffer 8 (if s.clock_24h then fmt_24h else fmt_12h) s.clock).head?
          = some ' ' then
        (strftime s.time_tmp_buffer 8 (if s.clock_24h then fmt_24h else fmt_12h) s.clock).drop 1
      else strftime s.time_tmp_buffer 8 (if s.clock_24h then fmt_24h else fmt_12h) s.clock := by
  rfl

theorem strftime_24h (buf : List Char) (t : Tm) (hh : t.tm_hour ≤ 23) (hm : t.tm_min ≤ 59) :
    strftime buf 8 fmt_24h t =
      [Nat.digitChar (t.tm_hour / 10), Nat.digitChar (t.tm_hour % 10), ':',
        Nat.digitChar (t.tm_min / 10), Nat.digitChar (t.tm_min % 10)] := by
  simp [strftime, fmt_24h, Conv.expand, pad2_zero _ (show t.tm_hour < 100 by omega),
    pad2_zero _ (show t.tm_min < 100 by omega)]

theorem strftime_12h (buf : List Char) (t : Tm) (hm : t.tm_min ≤ 59) :
    strftime buf 8 fmt_12h t =
      pad2 ' ' ((t.tm_hour + 11) % 12 + 1) ++
        [':', Nat.digitChar (t.tm_min / 10), Nat.digitChar (t.tm_min % 10)] := by
  have h12 : (if t.tm_hour % 12 = 0 then 12 else t.tm_hour % 12) = (t.tm_hour + 11) % 12 + 1 := by
    split <;> omega
  have hlen : (pad2 ' ' ((t.tm_hour + 11) % 12 + 1)).length = 2 := by
    have : (t.tm_hour + 11) % 12 < 12 := Nat.mod_lt _ (by decide)
    interval_cases (t.tm_hour + 11) % 12 <;> rfl
  simp [strftime, fmt_12h, Conv.expand, h12, hlen, pad2_zero _ (show t.tm_min < 100 by omega)]

theorem digitChar_ne_space (n : Nat) (h : n < 10) : Nat.digitChar n ≠ ' ' := by
  interval_cases n <;> decide

theorem toDigits_head (k : Nat) (hk : k < 12) :
    ∃ c cs, Nat.toDigits 10 (k + 1) = c :: cs ∧ c ≠ ' ' ∧
      pad2 ' ' (k + 1) = (if k + 1 < 10 then [' '] else []) ++ c :: cs := by
  interval_cases k <;> exact ⟨_, _, rfl, by decide, rfl⟩

theorem strip_pad2_space (k : Nat) (hk : k < 12) (rest : List Char) :
    (if (pad2 ' ' (k + 1) ++ rest).head? = some ' ' then (pad2 ' ' (k + 1) ++ rest).drop 1
      else pad2 ' ' (k + 1) ++ rest) = Nat.toDigits 10 (k + 1) ++ rest ∧
    (Nat.toDigits 10 (k + 1) ++ rest).head? ≠ some ' ' := by
  obtain ⟨c, cs, h1, h2, h3⟩ := toDigits_head k hk
  rw [h1, h3]
  by_cases h : k + 1 < 10 <;> simp [h, h2]

/-- C7: for a wall-clock time `h:m`, `update_time` displays `HH:MM` zero-padded
in 24-hour mode and, in 12-hour mode, the hour of the 12-hour clock (1..12) in
decimal with no padding followed by `:MM`; the display never begins with a
space. -/
theorem update_time_display (s : App) (hh : s.clock.tm_hour ≤ 23) (hm : s.clock.tm_min ≤ 59) :
    (update_time s).time_display =
        (if s.clock_24h then
          [Nat.digitChar (s.clock.tm_hour / 10), Nat.digitChar (s.clock.tm_hour % 10)]
        else Nat.toDigits 10 ((s.clock.tm_hour + 11) % 12 + 1)) ++
        [':', Nat.digitChar (s.clock.tm_min / 10), Nat.digitChar (s.clock.tm_min % 10)] ∧
      (update_time s).time_display.head? ≠ some ' ' := by
  rw [update_time_display_eq]
  cases hb : s.clock_24h
  · simp only [Bool.false_eq_true, if_false]
    rw [strftime_12h _ _ hm]
    have hk : (s.clock.tm_hour + 11) % 12 < 12 := Nat.mod_lt _ (by decide)
    obtain ⟨h1, h2⟩ := strip_pad2_space _ hk
      [':', Nat.digitChar (s.clock.tm_min / 10), Nat.digitChar (s.clock.tm_min % 10)]
    rw [h1]
    exact ⟨rfl, h2⟩
  · simp only [if_true]
    rw [strftime_24h _ _ hh hm]
    have hne := digitChar_ne_space (s.clock.tm_hour / 10) (by omega)
    simp [hne]

/-- C7, witness: 07:05 shows as "07:05" in 24-hour mode and "7:05" in 12-hour mode. -/
theorem update_time_display_witness :
    ((update_time (App.start (Tm.mk 5 7 3 0) true)).time_display = "07:05".toList ∧
      (update_time (App.start (Tm.mk 5 7 3 0) true)).time_display.head? ≠ some ' ') ∧
    ((update_time (App.start (Tm.mk 5 7 3 0) false)).time_display = "7:05".toList ∧
      (update_time (App.start (Tm.mk 5 7 3 0) false)).time_display.head? ≠ some ' ') :=
  ⟨update_time_display (App.start (Tm.mk 5 7 3 0) true) (by decide) (by decide),
    update_time_display (App.start (Tm.mk 5 7 3 0) false) (by decide) (by decide)⟩

/-! ## Single-precision rounding -/

theorem F32.shift_spec (fuel q : Nat) (h : q ≤ fuel) :
    q / 2 ^ F32.shift fuel q < 2 ^ 24 ∧
      (F32.shift fuel q = 0 ∨ 2 ^ 23 ≤ q / 2 ^ F32.shift fuel q) := by
  induction fuel generalizing q with
  | zero =>
    have : q = 0 := by omega
    subst this
    simp [F32.shift]
  | succ fuel ih =>
    unfold F32.shift
    split
    · simp_all
    · rename_i hq
      have h2 : q / 2 ≤ fuel := by omega
      obtain ⟨a, b⟩ := ih (q / 2) h2
      have e : q / 2 ^ (F32.shift fuel (q / 2) + 1) = q / 2 / 2 ^ F32.shift fuel (q / 2) := by
        rw [pow_succ, Nat.mul_comm, Nat.div_div_eq_div_mul]
      rw [e]
      refine ⟨a, Or.inr ?_⟩
      rcases b with b | b
      · rw [b]
        simp only [pow_zero, Nat.div_one]
        omega
      · exact b

theorem F32.shift_mono (q1 q2 : Nat) (h : q1 ≤ q2) :
    F32.shift q1 q1 ≤ F32.shift q2 q2 := by
  by_contra hlt
  push_neg at hlt
  obtain ⟨_, b1⟩ := F32.shift_spec q1 q1 le_rfl
  obtain ⟨a2, _⟩ := F32.shift_spec q2 q2 le_rfl
  have hne : F32.shift q1 q1 ≠ 0 := by omega
  have b1 := b1.resolve_left hne
  have h1 : q1 / 2 ^ F32.shift q1 q1 ≤ q2 / 2 ^ (F32.shift q2 q2 + 1) :=
    le_trans (Nat.div_le_div_right h)
      (Nat.div_le_div_left (Nat.pow_le_pow_right (by decide) hlt) (by positivity))
  have h2 : q2 / 2 ^ (F32.shift q2 q2 + 1) = q2 / 2 ^ F32.shift q2 q2 / 2 := by
    rw [pow_succ, Nat.div_div_eq_div_mul]
  omega


theorem F32.nearest_bounds (n D : Nat) (hD : 0 < D) :
    n / D ≤ F32.nearest n D ∧ F32.nearest n D ≤ n / D + 1 ∧
      2 * (F32.nearest n D * D) ≤ 2 * n + D ∧ 2 * n ≤ 2 * (F32.nearest n D * D) + D := by
  have hn : D * (n / D) + n % D = n := Nat.div_add_mod n D
  have hr : n % D < D := Nat.mod_lt n hD
  unfold F32.nearest
  generalize n / D = m at *
  generalize n % D = r at *
  have e1 : (m + 1) * D = D * m + D := by ring
  have e2 : m * D = D * m := by ring
  simp only []
  split_ifs <;> simp only [e1, e2] <;> omega

theorem F32.nearest_mono (n1 n2 D : Nat) (hD : 0 < D) (h : n1 ≤ n2) :
    F32.nearest n1 D ≤ F32.nearest n2 D := by
  have hq : n1 / D ≤ n2 / D := Nat.div_le_div_right h
  rcases Nat.lt_or_ge (n1 / D) (n2 / D) with hlt | hge
  · have a := (F32.nearest_bounds n1 D hD).2.1
    have b := (F32.nearest_bounds n2 D hD).1
    omega
  · have heq : n1 / D = n2 / D := le_antisymm hq hge
    have hn1 : D * (n1 / D) + n1 % D = n1 := Nat.div_add_mod n1 D
    have hn2 : D * (n2 / D) + n2 % D = n2 := Nat.div_add_mod n2 D
    have hr : n1 % D ≤ n2 % D := by
      rw [heq] at hn1
      omega
    unfold F32.nearest
    simp only [heq]
    generalize n2 / D = m at *
    generalize n1 % D = r1 at *
    generalize n2 % D = r2 at *
    split_ifs <;> omega

theorem F32.nearest_exact (k D : Nat) (hD : 0 < D) : F32.nearest (k * D) D = k := by
  unfold F32.nearest
  simp [Nat.mul_div_cancel _ hD, hD]

theorem F32.round_units (n d : Nat) :
    (F32.round n d).units =
      F32.nearest n (d * 2 ^ F32.shift (n / d) (n / d)) * 2 ^ F32.shift (n / d) (n / d) := rfl

theorem F32.round_mono (n1 n2 d : Nat) (hd : 0 < d) (h : n1 ≤ n2) :
    (F32.round n1 d).units ≤ (F32.round n2 d).units := by
  rw [F32.round_units, F32.round_units]
  have hq : n1 / d ≤ n2 / d := Nat.div_le_div_right h
  have hs := F32.shift_mono _ _ hq
  obtain ⟨a1, _⟩ := F32.shift_spec (n1 / d) (n1 / d) le_rfl
  obtain ⟨_, b2⟩ := F32.shift_spec (n2 / d) (n2 / d) le_rfl
  generalize F32.shift (n1 / d) (n1 / d) = s1 at *
  generalize F32.shift (n2 / d) (n2 / d) = s2 at *
  rcases Nat.lt_or_ge s1 s2 with hlt | hge
  · have hD1 : 0 < d * 2 ^ s1 := by positivity
    have hD2 : 0 < d * 2 ^ s2 := by positivity
    have u := (F32.nearest_bounds n1 (d * 2 ^ s1) hD1).2.1
    have l := (F32.nearest_bounds n2 (d * 2 ^ s2) hD2).1
    rw [← Nat.div_div_eq_div_mul] at u l
    have b2 := b2.resolve_left (by omega)
    have hp : 2 ^ (s1 + 1) ≤ 2 ^ s2 := Nat.pow_le_pow_right (by decide) hlt
    calc F32.nearest n1 (d * 2 ^ s1) * 2 ^ s1
        ≤ 2 ^ 24 * 2 ^ s1 := Nat.mul_le_mul_right _ (by omega)
      _ = 2 ^ 23 * 2 ^ (s1 + 1) := by ring
      _ ≤ 2 ^ 23 * 2 ^ s2 := Nat.mul_le_mul_left _ hp
      _ ≤ F32.nearest n2 (d * 2 ^ s2) * 2 ^ s2 := Nat.mul_le_mul_right _ (by omega)
  · have heq : s1 = s2 := le_antisymm hs hge
    subst heq
    exact Nat.mul_le_mul_right _ (F32.nearest_mono _ _ _ (by positivity) h)

theorem F32.round_exact (k e d : Nat) (hk : k < 2 ^ 24) (hd : 0 < d) :
    (F32.round (k * 2 ^ e * d) d).units = k * 2 ^ e := by
  rw [F32.round_units, Nat.mul_div_cancel _ hd]
  obtain ⟨_, b⟩ := F32.shift_spec (k * 2 ^ e) (k * 2 ^ e) le_rfl
  generalize F32.shift (k * 2 ^ e) (k * 2 ^ e) = s at *
  have hs : s ≤ e := by
    by_contra hlt
    push_neg at hlt
    have b := b.resolve_left (by omega)
    have h1 : k * 2 ^ e / 2 ^ s ≤ k * 2 ^ e / 2 ^ (e + 1) :=
      Nat.div_le_div_left (Nat.pow_le_pow_right (by decide) hlt) (by positivity)
    have h2 : k * 2 ^ e / 2 ^ (e + 1) = k / 2 := by
      rw [pow_succ, ← Nat.div_div_eq_div_mul, Nat.mul_div_cancel _ (by positivity)]
    omega
  obtain ⟨c, rfl⟩ := Nat.exists_eq_add_of_le hs
  have e1 : k * 2 ^ (s + c) * d = k * 2 ^ c * (d * 2 ^ s) := by ring
  rw [e1, F32.nearest_exact _ _ (by positivity)]
  ring

theorem F32.round_error (n d : Nat) (hd : 0 < d) :
    2 ^ 24 * ((F32.round n d).units * d) ≤ 2 ^ 24 * n + n + 2 ^ 23 * d ∧
      2 ^ 24 * n ≤ 2 ^ 24 * ((F32.round n d).units * d) + n + 2 ^ 23 * d := by
  rw [F32.round_units]
  obtain ⟨_, b⟩ := F32.shift_spec (n / d) (n / d) le_rfl
  generalize F32.shift (n / d) (n / d) = s at *
  obtain ⟨_, _, hi, lo⟩ := F32.nearest_bounds n (d * 2 ^ s) (by positivity)
  have e1 : F32.nearest n (d * 2 ^ s) * 2 ^ s * d = F32.nearest n (d * 2 ^ s) * (d * 2 ^ s) := by
    ring
  rw [e1]
  generalize F32.nearest n (d * 2 ^ s) * (d * 2 ^ s) = X at *
  have hD : 2 ^ 23 * (d * 2 ^ s) ≤ n + 2 ^ 23 * d := by
    rcases b with b | b
    · rw [b]
      simp
    · have h1 : 2 ^ 23 * 2 ^ s ≤ n / d := by
        have := Nat.div_mul_le_self (n / d) (2 ^ s)
        calc 2 ^ 23 * 2 ^ s ≤ n / d / 2 ^ s * 2 ^ s := Nat.mul_le_mul_right _ b
          _ ≤ n / d := this
      have h2 : n / d * d ≤ n := Nat.div_mul_le_self n d
      calc 2 ^ 23 * (d * 2 ^ s) = 2 ^ 23 * 2 ^ s * d := by ring
        _ ≤ n / d * d := Nat.mul_le_mul_right _ h1
        _ ≤ n := h2
        _ ≤ n + 2 ^ 23 * d := Nat.le_add_right _ _
  generalize d * 2 ^ s = D at *
  constructor <;> omega


theorem F32.ofNat_units (n : Nat) (h : n < 2 ^ 24) : (F32.ofNat n).units = n * 2 ^ 149 := by
  have := F32.round_exact n 149 1 h (by decide)
  rwa [Nat.mul_one] at this

theorem F32.round_zero (d : Nat) (hd : 0 < d) : (F32.round 0 d).units = 0 := by
  have := F32.round_exact 0 0 d (by decide) hd
  simpa using this

/-! ## Battery bar -/

theorem bar_width_mono (p q W : Nat) (h : p ≤ q) : bar_width p W ≤ bar_width q W := by
  unfold bar_width F32.toNat F32.mul F32.div
  apply Nat.div_le_div_right
  apply F32.round_mono _ _ _ (by positivity)
  apply Nat.mul_le_mul_right
  have h100 : 0 < (F32.ofNat 100).units := by
    rw [F32.ofNat_units 100 (by decide)]
    positivity
  apply F32.round_mono _ _ _ h100
  apply Nat.mul_le_mul_right
  exact F32.round_mono _ _ 1 (by decide) (Nat.mul_le_mul_right _ h)

theorem bar_width_zero (W : Nat) : bar_width 0 W = 0 := by
  unfold bar_width F32.toNat F32.mul F32.div
  have h100 : 0 < (F32.ofNat 100).units := by
    rw [F32.ofNat_units 100 (by decide)]
    positivity
  rw [F32.ofNat_units 0 (by decide)]
  simp only [Nat.zero_mul]
  rw [F32.round_zero _ h100]
  simp only [Nat.zero_mul]
  rw [F32.round_zero _ (by positivity)]
  simp

theorem bar_width_full (W : Nat) (hW : W < 2 ^ 24) : bar_width 100 W = W := by
  unfold bar_width F32.toNat F32.mul F32.div
  rw [F32.ofNat_units 100 (by decide), F32.ofNat_units W hW]
  have e1 : 100 * 2 ^ 149 * 2 ^ 149 = 1 * 2 ^ 149 * (100 * 2 ^ 149) := by ring
  rw [e1, F32.round_exact 1 149 _ (by decide) (by positivity)]
  have e2 : 1 * 2 ^ 149 * (W * 2 ^ 149) = W * 2 ^ 149 * 2 ^ 149 := by ring
  rw [e2, F32.round_exact W 149 _ hW (by positivity)]
  exact Nat.mul_div_cancel _ (by positivity)


theorem bar_width_units_bounds (p W : Nat) (hp : p ≤ 100) (hW : W ≤ 32767) :
    (F32.mul (F32.div (F32.ofNat p) (F32.ofNat 100)) (F32.ofNat W)).units
        < (p * W / 100 + 1) * 2 ^ 149 ∧
      p * W / 100 * 2 ^ 149 ≤
        (F32.mul (F32.div (F32.ofNat p) (F32.ofNat 100)) (F32.ofNat W)).units + 2 ^ 149 ∧
      (p * W % 100 ≠ 0 → p * W / 100 * 2 ^ 149 ≤
        (F32.mul (F32.div (F32.ofNat p) (F32.ofNat 100)) (F32.ofNat W)).units) := by
  unfold F32.mul F32.div
  rw [F32.ofNat_units 100 (by decide), F32.ofNat_units p (by norm_num; omega),
    F32.ofNat_units W (by norm_num; omega)]
  obtain ⟨h1a, h1b⟩ := F32.round_error (p * 2 ^ 149 * 2 ^ 149) (100 * 2 ^ 149) (by positivity)
  generalize (F32.round (p * 2 ^ 149 * 2 ^ 149) (100 * 2 ^ 149)).units = q at *
  obtain ⟨h2a, h2b⟩ := F32.round_error (q * (W * 2 ^ 149)) (2 ^ 149) (by positivity)
  generalize (F32.round (q * (W * 2 ^ 149)) (2 ^ 149)).units = y at *
  have hF1 : 100 * (p * W / 100) ≤ p * W := Nat.mul_div_le _ _
  have hF2 : p * W < 100 * (p * W / 100) + 100 := by
    have := Nat.div_add_mod (p * W) 100
    have := Nat.mod_lt (p * W) (show 0 < 100 by decide)
    omega
  have hF3 : p * W % 100 ≠ 0 → 100 * (p * W / 100) + 1 ≤ p * W := by
    intro h
    have := Nat.div_add_mod (p * W) 100
    omega
  have ht : p * W ≤ 3276700 := by
    calc p * W ≤ 100 * 32767 := Nat.mul_le_mul hp hW
      _ = 3276700 := by norm_num
  generalize p * W / 100 = F at *
  have h1aW := Nat.mul_le_mul_right W h1a
  have h1bW := Nat.mul_le_mul_right W h1b
  have e : q * W = W * q := Nat.mul_comm _ _
  generalize hz : W * q = z at *
  generalize ht' : p * W = t at *
  have k1a : 2 ^ 24 * 100 * 2 ^ 149 * z ≤ (2 ^ 24 + 1) * 2 ^ 149 * 2 ^ 149 * t
      + 2 ^ 23 * 100 * 2 ^ 149 * W := by
    have : 2 ^ 24 * (q * (100 * 2 ^ 149)) * W = 2 ^ 24 * 100 * 2 ^ 149 * z := by
      rw [← hz]; ring
    rw [this] at h1aW
    have : (2 ^ 24 * (p * 2 ^ 149 * 2 ^ 149) + p * 2 ^ 149 * 2 ^ 149 + 2 ^ 23 * (100 * 2 ^ 149)) * W
        = (2 ^ 24 + 1) * 2 ^ 149 * 2 ^ 149 * t + 2 ^ 23 * 100 * 2 ^ 149 * W := by
      rw [← ht']; ring
    rw [this] at h1aW
    exact h1aW
  have k1b : 2 ^ 24 * 2 ^ 149 * 2 ^ 149 * t ≤ 2 ^ 24 * 100 * 2 ^ 149 * z
      + 2 ^ 149 * 2 ^ 149 * t + 2 ^ 23 * 100 * 2 ^ 149 * W := by
    have : 2 ^ 24 * (p * 2 ^ 149 * 2 ^ 149) * W = 2 ^ 24 * 2 ^ 149 * 2 ^ 149 * t := by
      rw [← ht']; ring
    rw [this] at h1bW
    have : (2 ^ 24 * (q * (100 * 2 ^ 149)) + p * 2 ^ 149 * 2 ^ 149 + 2 ^ 23 * (100 * 2 ^ 149)) * W
        = 2 ^ 24 * 100 * 2 ^ 149 * z + 2 ^ 149 * 2 ^ 149 * t + 2 ^ 23 * 100 * 2 ^ 149 * W := by
      rw [← ht', ← hz]; ring
    rw [this] at h1bW
    exact h1bW
  have k2a : 2 ^ 24 * 2 ^ 149 * y ≤ (2 ^ 24 + 1) * 2 ^ 149 * z + 2 ^ 23 * 2 ^ 149 := by
    have : 2 ^ 24 * (y * 2 ^ 149) = 2 ^ 24 * 2 ^ 149 * y := by ring
    rw [this] at h2a
    have : 2 ^ 24 * (q * (W * 2 ^ 149)) + q * (W * 2 ^ 149) + 2 ^ 23 * 2 ^ 149
        = (2 ^ 24 + 1) * 2 ^ 149 * z + 2 ^ 23 * 2 ^ 149 := by
      rw [← hz]; ring
    rw [this] at h2a
    exact h2a
  have k2b : 2 ^ 24 * 2 ^ 149 * z ≤ 2 ^ 24 * 2 ^ 149 * y + 2 ^ 149 * z + 2 ^ 23 * 2 ^ 149 := by
    have : 2 ^ 24 * (q * (W * 2 ^ 149)) = 2 ^ 24 * 2 ^ 149 * z := by
      rw [← hz]; ring
    rw [this] at h2b
    have : 2 ^ 24 * (y * 2 ^ 149) + q * (W * 2 ^ 149) + 2 ^ 23 * 2 ^ 149
        = 2 ^ 24 * 2 ^ 149 * y + 2 ^ 149 * z + 2 ^ 23 * 2 ^ 149 := by
      rw [← hz]; ring
    rw [this] at h2b
    exact h2b
  clear h1a h1b h2a h2b h1aW h1bW e hz ht' hp
  norm_num at k1a k1b k2a k2b ⊢
  refine ⟨?_, ?_, ?_⟩
  · omega
  · omega
  · intro h
    have := hF3 h
    omega


set_option maxRecDepth 100000 in
theorem F32.div_100_table : ∀ p < 101,
    (p * 2 ^ 149 ≤ 100 * (F32.div (F32.ofNat p) (F32.ofNat 100)).units ∧ deficit p = 0) ∨
    (100 * (F32.div (F32.ofNat p) (F32.ofNat 100)).units < p * 2 ^ 149 ∧
      p * 2 ^ 149 ≤ 100 * (F32.div (F32.ofNat p) (F32.ofNat 100)).units + p * 2 ^ 125 ∧
      (if deficit p = 0 then
        p * 2 ^ 149 ≤ 100 * (F32.div (F32.ofNat p) (F32.ofNat 100)).units + p * 2 ^ 124
      else
        100 * (F32.div (F32.ofNat p) (F32.ofNat 100)).units + deficit p * 2 ^ 125
          = p * 2 ^ 149)) := by
  decide
theorem F32.shift_eq (q s : Nat) (hs : 1 ≤ s) (lo : 2 ^ 23 * 2 ^ s ≤ q)
    (hi : q < 2 ^ 24 * 2 ^ s) : F32.shift q q = s := by
  obtain ⟨a, b⟩ := F32.shift_spec q q le_rfl
  generalize F32.shift q q = t at *
  rcases Nat.lt_trichotomy t s with h | h | h
  · exfalso
    have h1 : 2 ^ 24 * 2 ^ t ≤ 2 ^ 23 * 2 ^ s := by
      calc 2 ^ 24 * 2 ^ t = 2 ^ 23 * 2 ^ (t + 1) := by ring
        _ ≤ 2 ^ 23 * 2 ^ s := Nat.mul_le_mul_left _ (Nat.pow_le_pow_right (by decide) h)
    have h2 : 2 ^ 24 ≤ q / 2 ^ t :=
      (Nat.le_div_iff_mul_le (by positivity)).mpr (le_trans h1 lo)
    omega
  · exact h
  · exfalso
    have b := b.resolve_left (by omega)
    have h1 : 2 ^ 23 * 2 ^ t ≤ q := by
      have := (Nat.le_div_iff_mul_le (show 0 < 2 ^ t by positivity)).mp b
      exact this
    have h2 : 2 ^ 24 * 2 ^ s ≤ 2 ^ 23 * 2 ^ t := by
      calc 2 ^ 24 * 2 ^ s = 2 ^ 23 * 2 ^ (s + 1) := by ring
        _ ≤ 2 ^ 23 * 2 ^ t := Nat.mul_le_mul_left _ (Nat.pow_le_pow_right (by decide) h)
    omega

theorem F32.round_between (n d M s : Nat) (hd : 0 < d) (hs : 1 ≤ s)
    (hM : 2 ^ 23 ≤ M) (hM' : M < 2 ^ 24)
    (lo : M * (d * 2 ^ s) ≤ n) (hi : n < (M + 1) * (d * 2 ^ s)) :
    (F32.round n d).units =
      (if 2 * n < (2 * M + 1) * (d * 2 ^ s) then M
        else if (2 * M + 1) * (d * 2 ^ s) < 2 * n then M + 1
        else if M % 2 = 0 then M else M + 1) * 2 ^ s := by
  have hq1 : 2 ^ 23 * 2 ^ s ≤ n / d := by
    rw [Nat.le_div_iff_mul_le hd]
    calc 2 ^ 23 * 2 ^ s * d ≤ M * 2 ^ s * d :=
          Nat.mul_le_mul_right _ (Nat.mul_le_mul_right _ hM)
      _ = M * (d * 2 ^ s) := by ring
      _ ≤ n := lo
  have hq2 : n / d < 2 ^ 24 * 2 ^ s := by
    rw [Nat.div_lt_iff_lt_mul hd]
    calc n < (M + 1) * (d * 2 ^ s) := hi
      _ = (M + 1) * 2 ^ s * d := by ring
      _ ≤ 2 ^ 24 * 2 ^ s * d :=
          Nat.mul_le_mul_right _ (Nat.mul_le_mul_right _ (by omega))
  rw [F32.round_units, F32.shift_eq _ s hs hq1 hq2]
  have hD : 0 < d * 2 ^ s := by positivity
  generalize d * 2 ^ s = D at *
  have hdiv : n / D = M := Nat.div_eq_of_lt_le lo hi
  have hmod : D * (n / D) + n % D = n := Nat.div_add_mod n D
  unfold F32.nearest
  simp only [hdiv] at hmod ⊢
  have e1 : D * M = M * D := Nat.mul_comm _ _
  have e2 : (2 * M + 1) * D = 2 * (M * D) + D := by ring
  rw [e1] at hmod
  rw [e2]
  generalize M * D = X at *
  generalize n % D = r at *
  congr 1
  split_ifs <;> omega


theorem F32.round_near (k f N : Nat) (hf : f ≤ 15) (h1 : k ≤ 2 ^ f) (h2 : 2 ^ f < 2 * k)
    (lo : k * 2 ^ 149 ≤ N + 2 ^ (125 + f)) (hi : N < k * 2 ^ 149) :
    (F32.round (N * 2 ^ 149) (2 ^ 149)).units =
      if 2 ^ (125 + f) + 2 * N < 2 * (k * 2 ^ 149) then k * 2 ^ 149 - 2 ^ (125 + f)
      else k * 2 ^ 149 := by
  have hPR : 2 ^ f * 2 ^ (24 - f) = 2 ^ 24 := by
    rw [← pow_add]
    congr 1
    omega
  have hRS : 2 ^ (24 - f) * 2 ^ (125 + f) = 2 ^ 149 := by
    rw [← pow_add]
    congr 1
    omega
  have hR2 : 2 ^ (24 - f) = 2 * 2 ^ (23 - f) := by
    rw [← pow_succ']
    congr 1
    omega
  have hTS : k * 2 ^ (24 - f) * 2 ^ (125 + f) = k * 2 ^ 149 := by
    rw [Nat.mul_assoc, hRS]
  have hT1 : 2 ^ 24 < 2 * (k * 2 ^ (24 - f)) := by
    have := Nat.mul_lt_mul_of_pos_right h2 (show 0 < 2 ^ (24 - f) by positivity)
    rw [hPR] at this
    calc 2 ^ 24 < 2 * k * 2 ^ (24 - f) := this
      _ = 2 * (k * 2 ^ (24 - f)) := by ring
  have hT2 : k * 2 ^ (24 - f) ≤ 2 ^ 24 := by
    have := Nat.mul_le_mul_right (2 ^ (24 - f)) h1
    rwa [hPR] at this
  have hT3 : k * 2 ^ (24 - f) % 2 = 0 := by
    rw [hR2, show k * (2 * 2 ^ (23 - f)) = 2 * (k * 2 ^ (23 - f)) by ring]
    exact Nat.mul_mod_right _ _
  generalize k * 2 ^ (24 - f) = T at *
  obtain ⟨M, rfl⟩ : ∃ M, T = M + 1 := ⟨T - 1, by omega⟩
  have hS : 0 < 2 ^ (125 + f) := by positivity
  have key := F32.round_between (N * 2 ^ 149) (2 ^ 149) M (125 + f)
    (by positivity) (by omega) (by omega) (by omega)
  generalize 2 ^ (125 + f) = S at *
  have e1 : M * (2 ^ 149 * S) = M * S * 2 ^ 149 := by ring
  have e2 : (M + 1) * (2 ^ 149 * S) = (M * S + S) * 2 ^ 149 := by ring
  have e3 : (2 * M + 1) * (2 ^ 149 * S) = (2 * (M * S) + S) * 2 ^ 149 := by ring
  have e4 : (M + 1) * S = M * S + S := by ring
  rw [e1, e2, e3] at key
  rw [e4] at hTS
  have key := key (by omega) (by omega)
  rw [key]
  clear key hPR hRS hR2 hT1 hT2 e1 e2 e3
  split_ifs <;> (try rw [e4]) <;> omega


theorem bar_width_unfold (p W : Nat) (hW : W ≤ 32767) :
    bar_width p W =
      (F32.round ((F32.div (F32.ofNat p) (F32.ofNat 100)).units * W * 2 ^ 149)
        (2 ^ 149)).units / 2 ^ 149 := by
  unfold bar_width F32.toNat F32.mul
  rw [F32.ofNat_units W (by norm_num; omega), Nat.mul_assoc]

theorem bar_width_multiple_up (p W k : Nat) (hp : p ≤ 100) (hW : W ≤ 32767)
    (hk : p * W = 100 * k)
    (hQ : p * 2 ^ 149 ≤ 100 * (F32.div (F32.ofNat p) (F32.ofNat 100)).units) :
    bar_width p W = k := by
  have hup := (bar_width_units_bounds p W hp hW).1
  have hF : p * W / 100 = k := by omega
  have hkb : k ≤ 32767 := by
    have := Nat.mul_le_mul hp hW
    omega
  rw [hF] at hup
  rw [bar_width_unfold p W hW]
  unfold F32.mul at hup
  rw [F32.ofNat_units W (by norm_num; omega), ← Nat.mul_assoc] at hup
  generalize (F32.div (F32.ofNat p) (F32.ofNat 100)).units = Q at *
  have hN : k * 2 ^ 149 ≤ Q * W := by
    have h1 := Nat.mul_le_mul_right W hQ
    have e1 : p * 2 ^ 149 * W = 100 * (k * 2 ^ 149) := by
      calc p * 2 ^ 149 * W = p * W * 2 ^ 149 := by ring
        _ = 100 * k * 2 ^ 149 := by rw [hk]
        _ = 100 * (k * 2 ^ 149) := by ring
    have e2 : 100 * Q * W = 100 * (Q * W) := by ring
    rw [e1, e2] at h1
    exact Nat.le_of_mul_le_mul_left h1 (by decide)
  have hlo : k * 2 ^ 149 ≤ (F32.round (Q * W * 2 ^ 149) (2 ^ 149)).units := by
    have h1 := F32.round_mono (k * 2 ^ 149 * 2 ^ 149) (Q * W * 2 ^ 149) (2 ^ 149)
      (by positivity) (Nat.mul_le_mul_right _ hN)
    rwa [F32.round_exact k 149 (2 ^ 149) (by norm_num; omega) (by positivity)] at h1
  generalize (F32.round (Q * W * 2 ^ 149) (2 ^ 149)).units = y at *
  norm_num at hup hlo ⊢
  omega

theorem bar_width_multiple_down (p W k f D : Nat) (hW : W ≤ 32767)
    (hk : p * W = 100 * k) (hf : f ≤ 15) (h1 : k ≤ 2 ^ f) (h2 : 2 ^ f < 2 * k)
    (hD : 100 * (F32.div (F32.ofNat p) (F32.ofNat 100)).units + D = p * 2 ^ 149)
    (hD0 : 0 < D) (hD1 : D ≤ p * 2 ^ 125) :
    bar_width p W = if 50 * 2 ^ (125 + f) < D * W then k - 1 else k := by
  rw [bar_width_unfold p W hW]
  generalize (F32.div (F32.ofNat p) (F32.ofNat 100)).units = Q at *
  have hP : 2 ^ f ≤ 2 ^ 15 := Nat.pow_le_pow_right (by decide) hf
  have hS : 2 ^ (125 + f) = 2 ^ 125 * 2 ^ f := pow_add 2 125 f
  have hW0 : 0 < W := by
    rcases Nat.eq_zero_or_pos W with h | h
    · subst h
      omega
    · exact h
  have hE0 : 0 < D * W := Nat.mul_pos hD0 hW0
  have hsum : 100 * (Q * W) + D * W = 100 * (k * 2 ^ 149) := by
    calc 100 * (Q * W) + D * W = (100 * Q + D) * W := by ring
      _ = p * 2 ^ 149 * W := by rw [hD]
      _ = p * W * 2 ^ 149 := by ring
      _ = 100 * k * 2 ^ 149 := by rw [hk]
      _ = 100 * (k * 2 ^ 149) := by ring
  have hE1 : D * W ≤ 100 * (2 ^ 125 * k) := by
    calc D * W ≤ p * 2 ^ 125 * W := Nat.mul_le_mul_right _ hD1
      _ = 2 ^ 125 * (p * W) := by ring
      _ = 2 ^ 125 * (100 * k) := by rw [hk]
      _ = 100 * (2 ^ 125 * k) := by ring
  have key := F32.round_near k f (Q * W) hf h1 h2
  rw [hS] at key ⊢
  generalize Q * W = N at *
  generalize D * W = E at *
  generalize 2 ^ f = P at *
  norm_num at key hsum hE1 hP ⊢
  rw [key (by omega) (by omega)]
  split_ifs <;> omega


theorem exists_pow_two_ge (k : Nat) (h1 : 1 ≤ k) (h2 : k ≤ 32767) :
    ∃ f, f ≤ 15 ∧ k ≤ 2 ^ f ∧ 2 ^ f < 2 * k := by
  refine ⟨Nat.clog 2 k, ?_, Nat.le_pow_clog (by decide) k, ?_⟩
  · by_contra h
    push_neg at h
    have hk : 1 < k := by
      by_contra hk
      have : k = 1 := by omega
      subst this
      simp at h
    have h4 := Nat.pow_pred_clog_lt_self (show 1 < 2 by decide) hk
    have h3 : 2 ^ 15 ≤ 2 ^ (Nat.clog 2 k).pred :=
      Nat.pow_le_pow_right (by decide) (by simp only [Nat.pred_eq_sub_one]; omega)
    have h5 : (2 : Nat) ^ 15 = 32768 := by norm_num
    omega
  · rcases Nat.lt_or_ge 1 k with hk | hk
    · have := Nat.pow_pred_clog_lt_self (show 1 < 2 by decide) hk
      have hpos : 0 < Nat.clog 2 k := Nat.clog_pos (by decide) (by omega)
      have e : 2 ^ Nat.clog 2 k = 2 * 2 ^ (Nat.clog 2 k).pred := by
        rw [← pow_succ']
        congr 1
        simp only [Nat.pred_eq_sub_one]
        omega
      omega
    · have : k = 1 := by omega
      subst this
      simp

theorem pow_two_ge_unique (k f g : Nat) (hf : k ≤ 2 ^ f) (hf' : 2 ^ f < 2 * k)
    (hg : k ≤ 2 ^ g) (hg' : 2 ^ g < 2 * k) : 2 ^ f = 2 ^ g := by
  rcases Nat.lt_trichotomy f g with h | h | h
  · have := Nat.pow_le_pow_right (show 0 < 2 by decide) (show f + 1 ≤ g from h)
    rw [pow_succ] at this
    omega
  · rw [h]
  · have := Nat.pow_le_pow_right (show 0 < 2 by decide) (show g + 1 ≤ f from h)
    rw [pow_succ] at this
    omega

theorem one_short_iff (p W k f : Nat) (hk : p * W = 100 * k) (hf : f ≤ 15)
    (h1 : k ≤ 2 ^ f) (h2 : 2 ^ f < 2 * k) :
    one_short p W = true ↔ 50 * 2 ^ f < deficit p * W := by
  have hF : p * W / 100 = k := by omega
  have hm : p * W % 100 = 0 := by omega
  unfold one_short
  simp only [decide_eq_true_eq, hF, hm, true_and]
  constructor
  · rintro ⟨g, _, a, b, c⟩
    rwa [pow_two_ge_unique k f g h1 h2 a b]
  · intro h
    exact ⟨f, by omega, h1, h2, h⟩

theorem one_short_of_deficit_zero (p W : Nat) (h : deficit p = 0) : one_short p W = false := by
  unfold one_short
  simp [h]

theorem bar_width_exact (p W : Nat) (hp : p ≤ 100) (hW : W ≤ 32767) :
    bar_width p W = p * W / 100 - (if one_short p W = true then 1 else 0) := by
  obtain ⟨hup, _, hnm⟩ := bar_width_units_bounds p W hp hW
  have hle : bar_width p W ≤ p * W / 100 := by
    unfold bar_width F32.toNat
    generalize (F32.mul (F32.div (F32.ofNat p) (F32.ofNat 100)) (F32.ofNat W)).units = y at *
    generalize p * W / 100 = F at *
    norm_num at hup ⊢
    omega
  by_cases hm : p * W % 100 = 0
  · obtain ⟨k, hk⟩ : ∃ k, p * W = 100 * k := ⟨p * W / 100, by omega⟩
    have hF : p * W / 100 = k := by omega
    rw [hF] at hle ⊢
    rcases F32.div_100_table p (by omega) with ⟨hQ, ha⟩ | ⟨hlt, hD1, hc⟩
    · rw [one_short_of_deficit_zero p W ha, bar_width_multiple_up p W k hp hW hk hQ]
      simp
    · rcases Nat.eq_zero_or_pos k with h0 | h0
      · subst h0
        have : one_short p W = false := by
          unfold one_short
          simp [hF]
        rw [this]
        omega
      · have hkb : k ≤ 32767 := by
          have := Nat.mul_le_mul hp hW
          omega
        obtain ⟨f, hf, h1, h2⟩ := exists_pow_two_ge k h0 hkb
        obtain ⟨D, hD⟩ : ∃ D, 100 * (F32.div (F32.ofNat p) (F32.ofNat 100)).units + D
            = p * 2 ^ 149 := ⟨_, Nat.add_sub_cancel' (le_of_lt hlt)⟩
        have hD0 : 0 < D := by omega
        have hDle : D ≤ p * 2 ^ 125 := by omega
        rw [bar_width_multiple_down p W k f D hW hk hf h1 h2 hD hD0 hDle]
        have hS : 2 ^ (125 + f) = 2 ^ 125 * 2 ^ f := pow_add 2 125 f
        by_cases ha : deficit p = 0
        · rw [one_short_of_deficit_zero p W ha]
          rw [if_pos ha] at hc
          have hDs : D ≤ p * 2 ^ 124 := by omega
          have hE : D * W ≤ 100 * (2 ^ 124 * k) := by
            calc D * W ≤ p * 2 ^ 124 * W := Nat.mul_le_mul_right _ hDs
              _ = 2 ^ 124 * (p * W) := by ring
              _ = 2 ^ 124 * (100 * k) := by rw [hk]
              _ = 100 * (2 ^ 124 * k) := by ring
          have : ¬ 50 * 2 ^ (125 + f) < D * W := by
            rw [hS]
            generalize D * W = E at *
            generalize 2 ^ f = P at *
            norm_num at hE ⊢
            omega
          simp [this]
        · rw [if_neg ha] at hc
          have hDa : D = deficit p * 2 ^ 125 := Nat.add_left_cancel (hD.trans hc.symm)
          have hiff := one_short_iff p W k f hk hf h1 h2
          have hcond : 50 * 2 ^ (125 + f) < D * W ↔ 50 * 2 ^ f < deficit p * W := by
            rw [hS, hDa]
            have e1 : 50 * (2 ^ 125 * 2 ^ f) = 50 * 2 ^ f * 2 ^ 125 := by ring
            have e2 : deficit p * 2 ^ 125 * W = deficit p * W * 2 ^ 125 := by ring
            rw [e1, e2]
            exact Nat.mul_lt_mul_right (show 0 < 2 ^ 125 by positivity)
          by_cases hs : one_short p W = true
          · rw [if_pos (hcond.mpr (hiff.mp hs)), if_pos hs]
          · rw [if_neg (fun h => hs (hiff.mpr (hcond.mp h))), if_neg hs]
            rfl
  · have hs : one_short p W = false := by
      unfold one_short
      simp [hm]
    rw [hs]
    have := hnm hm
    unfold bar_width F32.toNat
    generalize (F32.mul (F32.div (F32.ofNat p) (F32.ofNat 100)) (F32.ofNat W)).units = y at *
    generalize p * W / 100 = F at *
    norm_num at hup this ⊢
    omega


/-- C3 (amended): for a charge `p ≤ 100` and a track width `W ≤ 32767` (the
largest `int16_t` width of a `GRect`), the foreground bar drawn by
`battery_update_proc` is `floor(p * W / 100)` wide, except that it is one pixel
less exactly at the pairs of `one_short`: `p` is one of the twelve charges with
a non-zero `deficit`, `p * W` is a multiple of 100, and `deficit p * W` exceeds
`50 * 2^f`, where `2^f` is the least power of two not below `p * W / 100`. -/
theorem battery_bar_width_exact (bounds : GRect) (s : App)
    (hp : s.s_battery_level ≤ 100) (hW : s.s_battery_layer_width ≤ 32767) :
    foreground_width (battery_update_proc bounds s) =
      s.s_battery_level * s.s_battery_layer_width / 100 -
        (if one_short s.s_battery_level s.s_battery_layer_width = true then 1 else 0) :=
  bar_width_exact _ _ hp hW

/-- C3, witness: 50 % on a 144-pixel track draws exactly 72 pixels, and 53 % on
a 200-pixel track draws 105, one less than `floor(106)`. -/
theorem battery_bar_width_exact_witness :
    (foreground_width (battery_update_proc (GRect.mk 0 0 144 2)
        (battery_callback 50 (main_window_load 144 (App.start (Tm.mk 5 7 3 0) true))))
        = 50 * 144 / 100 - (if one_short 50 144 = true then 1 else 0) ∧
      one_short 50 144 = false) ∧
    (foreground_width (battery_update_proc (GRect.mk 0 0 200 2)
        (battery_callback 53 (main_window_load 200 (App.start (Tm.mk 5 7 3 0) true))))
        = 53 * 200 / 100 - (if one_short 53 200 = true then 1 else 0) ∧
      one_short 53 200 = true) :=
  ⟨⟨battery_bar_width_exact (GRect.mk 0 0 144 2)
      (battery_callback 50 (main_window_load 144 (App.start (Tm.mk 5 7 3 0) true)))
      (by decide) (by decide), by decide⟩,
    ⟨battery_bar_width_exact (GRect.mk 0 0 200 2)
      (battery_callback 53 (main_window_load 200 (App.start (Tm.mk 5 7 3 0) true)))
      (by decide) (by decide), by decide⟩⟩

set_option maxRecDepth 100000 in
/-- C3, counterexample: at 53 % on a 100-pixel track the bar is 52 pixels wide,
not `floor(53 * 100 / 100) = 53`: `53.0F / 100.0F` rounds below 0.53 and the
product rounds to `53 - 2^-18`.  Likewise 65 % of 180 pixels gives 116, not 117. -/
theorem battery_bar_width_counterexample :
    (foreground_width (battery_update_proc (GRect.mk 0 0 100 2)
        (battery_callback 53 (main_window_load 100 (App.start (Tm.mk 5 7 3 0) true)))) = 52 ∧
      53 * 100 / 100 = 53) ∧
    (foreground_width (battery_update_proc (GRect.mk 0 0 180 2)
        (battery_callback 65 (main_window_load 180 (App.start (Tm.mk 5 7 3 0) true)))) = 116 ∧
      65 * 180 / 100 = 117) := by
  refine ⟨⟨by rfl, by decide⟩, ⟨by rfl, by decide⟩⟩

/-- C4: for a track width `W ≤ 32767` (an `int16_t` pixel width) the bar drawn
after `battery_callback` stored the charge is monotone in the charge: for
`p ≤ q` (in particular for `p ≤ q ≤ 100`) the bar for `p` is no wider than the
bar for `q`; the bar for 0 is 0 wide and the bar for 100 is `W` wide. -/
theorem battery_bar_monotone (bounds : GRect) (s : App) (p q : Nat)
    (hpq : p ≤ q) (hW : s.s_battery_layer_width ≤ 32767) :
    foreground_width (battery_update_proc bounds (battery_callback p s)) ≤
        foreground_width (battery_update_proc bounds (battery_callback q s)) ∧
      foreground_width (battery_update_proc bounds (battery_callback 0 s)) = 0 ∧
      foreground_width (battery_update_proc bounds (battery_callback 100 s))
        = s.s_battery_layer_width := by
  have e : ∀ l, foreground_width (battery_update_proc bounds (battery_callback l s)) =
      bar_width l s.s_battery_layer_width := fun _ => rfl
  rw [e, e, e, e]
  exact ⟨bar_width_mono _ _ _ hpq, bar_width_zero _,
    bar_width_full _ (by norm_num; omega)⟩

/-- C4, witness: 53 % against 54 % on a 100-pixel track. -/
theorem battery_bar_monotone_witness :
    foreground_width (battery_update_proc (GRect.mk 0 0 100 2)
        (battery_callback 53 (main_window_load 100 (App.start (Tm.mk 5 7 3 0) true)))) ≤
      foreground_width (battery_update_proc (GRect.mk 0 0 100 2)
        (battery_callback 54 (main_window_load 100 (App.start (Tm.mk 5 7 3 0) true)))) ∧
      foreground_width (battery_update_proc (GRect.mk 0 0 100 2)
        (battery_callback 0 (main_window_load 100 (App.start (Tm.mk 5 7 3 0) true)))) = 0 ∧
      foreground_width (battery_update_proc (GRect.mk 0 0 100 2)
        (battery_callback 100 (main_window_load 100 (App.start (Tm.mk 5 7 3 0) true))))
        = (main_window_load 100 (App.start (Tm.mk 5 7 3 0) true)).s_battery_layer_width :=
  battery_bar_monotone (GRect.mk 0 0 100 2)
    (main_window_load 100 (App.start (Tm.mk 5 7 3 0) true)) 53 54
    (by decide) (by decide)


end Pebbleface
